import Mathlib

/-!
# Verification of the Iterum DSP core against its specification

Shallow embedding of the DSP primitives of the `rolandzwaga/iterum`
repository (`src/dsp/primitives/oversampler.h`, `src/dsp/primitives/bit_crusher.h`,
`src/dsp/processors/pitch_shift_processor.h`) together with theorems settling
the specification claims about them.

Modelling conventions:
* `float`/`double` samples and parameters are modelled as exact numbers:
  `ℚ` where every operation of the embedded code is rational (the FIR
  oversampler pipeline, the bit-crusher quantizer), and `ℝ` where the code
  calls transcendental functions (`std::exp`, `std::log`, `std::pow`,
  `std::sin`, `std::cos`).
* `std::clamp(v, lo, hi)` is embedded literally as
  `if v < lo then lo else if hi < v then hi else v`.
* `std::round` (round half away from zero) is embedded as `cround`.
* 32-bit unsigned integers are `ℕ` with explicit `% 2^32`.
* Buffers passed by pointer are `List`s; the in-place `process` calls return
  the new buffer contents.  A null pointer argument is modelled by a `Bool`
  flag (`inputNull` / `outputNull`).
* `smoother.h` (`OnePoleSmoother`) and `biquad.h` (`BiquadCascade`) are not
  part of the provided sources; they are modelled from the spec where needed
  (see the doc comments of `OnePoleSmoother` and `BiquadSection`).
-/

namespace IterumDSP

/-- `std::clamp(v, lo, hi)` over the rationals, embedded literally from the
C++ definition: `v < lo ? lo : (hi < v ? hi : v)`. -/
def sclampQ (v lo hi : ℚ) : ℚ :=
  if v < lo then lo else if hi < v then hi else v

/-- `std::clamp(v, lo, hi)` over the reals (same literal embedding). -/
noncomputable def sclampR (v lo hi : ℝ) : ℝ :=
  if v < lo then lo else if hi < v then hi else v

/-- `std::round` over the reals: round half away from zero
(`round(x) = floor(x + 1/2)` for `x ≥ 0`, mirrored for `x < 0`). -/
noncomputable def cround (x : ℝ) : ℝ :=
  if x < 0 then -((⌊-x + 1/2⌋ : ℤ) : ℝ) else ((⌊x + 1/2⌋ : ℤ) : ℝ)

/-!
## Pitch conversion utilities (`pitch_shift_processor.h`)

The source stores `ln(2)/12` and `12/ln(2)` as 32-significant-digit decimal
float literals (commented `// ln(2)/12` and `// 12/ln(2)`); at `float` (and
even `double`) precision those literals round to exactly `ln(2)/12` resp.
`12/ln(2)`, so the real-valued embedding uses the exact constants.
-/

/-- `kLn2Over12` from `pitchRatioFromSemitones`. -/
noncomputable def kLn2Over12 : ℝ := Real.log 2 / 12

/-- `k12OverLn2` from `semitonesFromPitchRatio`. -/
noncomputable def k12OverLn2 : ℝ := 12 / Real.log 2

/-- `pitchRatioFromSemitones`: `std::exp(semitones * kLn2Over12)`. -/
noncomputable def pitchRatioFromSemitones (semitones : ℝ) : ℝ :=
  Real.exp (semitones * kLn2Over12)

/-- `semitonesFromPitchRatio`: `0` for `ratio ≤ 0`, else
`std::log(ratio) * k12OverLn2`. -/
noncomputable def semitonesFromPitchRatio (ratio : ℝ) : ℝ :=
  if ratio ≤ 0 then 0 else Real.log ratio * k12OverLn2

/-!
## `OnePoleSmoother`

Modelled from the spec: `smoother.h` is not among the provided sources, only
its callers are.  Spec §4.1: `configure(timeMs, sampleRate)` sets a one-pole
coefficient `a = exp(-1/(timeMs·0.001·sampleRate))`; `setTarget(v)` stores a
goal; `process()` advances `cur += (target-cur)·(1-a)` and returns it;
`snapToTarget()` forces `cur = target`; `reset()` reinitializes `cur` to 0.
-/

/-- One-pole parameter smoother state (modelled from spec §4.1). -/
structure OnePoleSmoother where
  current : ℝ
  target : ℝ
  coeffA : ℝ

namespace OnePoleSmoother

/-- `configure(timeMs, sampleRate)`: `a = exp(-1/(timeMs·0.001·sampleRate))`. -/
noncomputable def configure (timeMs sampleRate : ℝ) (s : OnePoleSmoother) :
    OnePoleSmoother :=
  { s with coeffA := Real.exp (-1 / (timeMs * 0.001 * sampleRate)) }

/-- `setTarget(v)` stores the goal value. -/
def setTarget (v : ℝ) (s : OnePoleSmoother) : OnePoleSmoother :=
  { s with target := v }

/-- `process()` advances `cur += (target-cur)·(1-a)` and returns the new value. -/
def process (s : OnePoleSmoother) : ℝ × OnePoleSmoother :=
  let c := s.current + (s.target - s.current) * (1 - s.coeffA)
  (c, { s with current := c })

/-- `snapToTarget()` forces `cur = target`. -/
def snapToTarget (s : OnePoleSmoother) : OnePoleSmoother :=
  { s with current := s.target }

/-- `reset()` reinitializes `cur` to 0. -/
def reset (s : OnePoleSmoother) : OnePoleSmoother :=
  { s with current := 0 }

end OnePoleSmoother

/-!
## `SimplePitchShifter` (`pitch_shift_processor.h`, lines 323-470)

Zero-latency pitch shifter using a dual delay-line crossfade.  The C++
`kPi = 3.14159265358979323846f` literal is `π` to beyond float precision and
is embedded as `Real.pi`.
-/

/-- `SimplePitchShifter` state: circular buffer, write cursor, the two delay
taps, crossfade phase and configuration. -/
structure SimplePitchShifter where
  buffer : List ℝ
  bufferSize : ℕ
  writePos : ℕ
  delay1 : ℝ
  delay2 : ℝ
  crossfadePhase : ℝ
  maxDelay : ℝ
  minDelay : ℝ
  sampleRate : ℝ
  needsCrossfade : Bool

namespace SimplePitchShifter

/-- `kWindowTimeMs = 50.0f`. -/
def kWindowTimeMs : ℝ := 50

/-- `reset()`: zero the buffer and cursor, park both delays at `maxDelay_`,
clear the crossfade. -/
def reset (s : SimplePitchShifter) : SimplePitchShifter :=
  { s with
    buffer := List.replicate s.bufferSize 0
    writePos := 0
    delay1 := s.maxDelay
    delay2 := s.maxDelay
    crossfadePhase := 0
    needsCrossfade := false }

/-- `prepare(sampleRate, maxBlockSize)`: compute the delay range and buffer
size (`static_cast<std::size_t>(maxDelay_) * 2 + 64`), allocate, reset. -/
noncomputable def prepare (sampleRate : ℝ) (s : SimplePitchShifter) :
    SimplePitchShifter :=
  let maxDelay := sampleRate * kWindowTimeMs * 0.001
  let bufferSize := (⌊maxDelay⌋).toNat * 2 + 64
  reset { s with
    sampleRate := sampleRate
    maxDelay := maxDelay
    minDelay := 1
    bufferSize := bufferSize
    buffer := List.replicate bufferSize 0 }

/-- `readInterpolated(pos)`: linear interpolation between the two buffer
entries bracketing `pos` (`static_cast<std::size_t>(pos)` truncates the
non-negative read position). -/
noncomputable def readInterpolated (s : SimplePitchShifter) (pos : ℝ) : ℝ :=
  let idx0 := (⌊pos⌋).toNat % s.bufferSize
  let idx1 := (idx0 + 1) % s.bufferSize
  let frac := pos - ⌊pos⌋
  s.buffer.getD idx0 0 * (1 - frac) + s.buffer.getD idx1 0 * frac

/-- One iteration of the per-sample loop of `SimplePitchShifter::process`
(the non-passthrough branch), returning the updated state and the output
sample. -/
noncomputable def processStep (pitchRatio : ℝ) (s : SimplePitchShifter)
    (x : ℝ) : SimplePitchShifter × ℝ :=
  let delayChange := 1 - pitchRatio
  let bufferSizeF : ℝ := (s.bufferSize : ℝ)
  let crossfadeLength := s.maxDelay * 0.25
  let crossfadeRate := 1 / crossfadeLength
  let triggerThreshold := crossfadeLength
  let buffer := s.buffer.set s.writePos x
  let s := { s with buffer := buffer }
  let readPos1 := (s.writePos : ℝ) - s.delay1
  let readPos2 := (s.writePos : ℝ) - s.delay2
  let readPos1 := if readPos1 < 0 then readPos1 + bufferSizeF else readPos1
  let readPos2 := if readPos2 < 0 then readPos2 + bufferSizeF else readPos2
  let sample1 := readInterpolated s readPos1
  let sample2 := readInterpolated s readPos2
  let gain1 := Real.cos (s.crossfadePhase * Real.pi * 0.5)
  let gain2 := Real.sin (s.crossfadePhase * Real.pi * 0.5)
  let out := sample1 * gain1 + sample2 * gain2
  let delay1 := s.delay1 + delayChange
  let delay2 := s.delay2 + delayChange
  let approachingLimit :=
    (delayChange < 0 ∧ delay1 ≤ s.minDelay + triggerThreshold) ∨
    (delayChange > 0 ∧ delay1 ≥ s.maxDelay - triggerThreshold)
  let (delay2, needsCrossfade) :=
    if ¬s.needsCrossfade ∧ approachingLimit then
      ((if pitchRatio > 1 then s.maxDelay else s.minDelay), true)
    else (delay2, s.needsCrossfade)
  let (crossfadePhase, needsCrossfade, delay1, delay2) :=
    if needsCrossfade then
      let phase := s.crossfadePhase + crossfadeRate
      if phase ≥ 1 then (0, false, delay2, delay1)
      else (phase, true, delay1, delay2)
    else (s.crossfadePhase, needsCrossfade, delay1, delay2)
  let delay1 := sclampR delay1 s.minDelay s.maxDelay
  let delay2 := sclampR delay2 s.minDelay s.maxDelay
  ({ s with
      delay1 := delay1
      delay2 := delay2
      crossfadePhase := crossfadePhase
      needsCrossfade := needsCrossfade
      writePos := (s.writePos + 1) % s.bufferSize }, out)

/-- Fold `processStep` over an input block, collecting the output samples. -/
noncomputable def processLoop (pitchRatio : ℝ) (s : SimplePitchShifter) :
    List ℝ → SimplePitchShifter × List ℝ
  | [] => (s, [])
  | x :: xs =>
    let (s', y) := processStep pitchRatio s x
    let (s'', ys) := processLoop pitchRatio s' xs
    (s'', y :: ys)

/-- `SimplePitchShifter::process(input, output, numSamples, pitchRatio)`:
at unity pitch (`|pitchRatio - 1| < 0.0001`) the input is copied through
unchanged; otherwise the dual-delay Doppler loop runs.  Returns the updated
state and the output buffer contents. -/
noncomputable def process (s : SimplePitchShifter) (input : List ℝ)
    (pitchRatio : ℝ) : SimplePitchShifter × List ℝ :=
  if |pitchRatio - 1| < 0.0001 then (s, input)
  else processLoop pitchRatio s input

end SimplePitchShifter

/-!
## `PitchShiftProcessor` (`pitch_shift_processor.h`, lines 47-634)
-/

/-- Quality mode selection (`PitchMode`). -/
inductive PitchMode where
  | Simple
  | Granular
  | PhaseVocoder
deriving DecidableEq, Repr

/-- `PitchShiftProcessor::Impl`: parameters, prepared flag, the internal
`SimplePitchShifter` and the two parameter smoothers. -/
structure PitchShiftProcessor where
  mode : PitchMode
  semitones : ℝ
  cents : ℝ
  formantPreserve : Bool
  sampleRate : ℝ
  maxBlockSize : ℕ
  prepared : Bool
  simpleShifter : SimplePitchShifter
  semitoneSmoother : OnePoleSmoother
  centsSmoother : OnePoleSmoother

namespace PitchShiftProcessor

/-- Default-constructed processor (`Impl` default member initializers;
the default mode is `Simple` per the `Impl` definition).  The
`OnePoleSmoother` and `SimplePitchShifter` fields start zeroed as their
default constructors leave them before `prepare`. -/
def init : PitchShiftProcessor :=
  { mode := PitchMode.Simple
    semitones := 0
    cents := 0
    formantPreserve := false
    sampleRate := 44100
    maxBlockSize := 512
    prepared := false
    simpleShifter :=
      { buffer := []
        bufferSize := 0
        writePos := 0
        delay1 := 0
        delay2 := 0
        crossfadePhase := 0
        maxDelay := 0
        minDelay := 1
        sampleRate := 44100
        needsCrossfade := false }
    semitoneSmoother := { current := 0, target := 0, coeffA := 0 }
    centsSmoother := { current := 0, target := 0, coeffA := 0 } }

/-- `reset()`: no-op unless prepared; resets the shifter and both smoothers
and re-targets them at the current parameter values. -/
def reset (p : PitchShiftProcessor) : PitchShiftProcessor :=
  if ¬p.prepared then p
  else
    { p with
      simpleShifter := p.simpleShifter.reset
      semitoneSmoother :=
        OnePoleSmoother.setTarget p.semitones p.semitoneSmoother.reset
      centsSmoother :=
        OnePoleSmoother.setTarget p.cents p.centsSmoother.reset }

/-- `prepare(sampleRate, maxBlockSize)`: store the configuration, prepare the
internal shifter, configure both smoothers with a 10 ms time constant, mark
prepared, then `reset()`. -/
noncomputable def prepare (sampleRate : ℝ) (maxBlockSize : ℕ)
    (p : PitchShiftProcessor) : PitchShiftProcessor :=
  reset
    { p with
      sampleRate := sampleRate
      maxBlockSize := maxBlockSize
      simpleShifter := p.simpleShifter.prepare sampleRate
      semitoneSmoother :=
        OnePoleSmoother.configure 10 sampleRate p.semitoneSmoother
      centsSmoother := OnePoleSmoother.configure 10 sampleRate p.centsSmoother
      prepared := true }

/-- `setMode(mode)`. -/
def setMode (m : PitchMode) (p : PitchShiftProcessor) : PitchShiftProcessor :=
  { p with mode := m }

/-- `setSemitones(semitones)`: clamp to `[-24, 24]`. -/
noncomputable def setSemitones (s : ℝ) (p : PitchShiftProcessor) :
    PitchShiftProcessor :=
  { p with semitones := sclampR s (-24) 24 }

/-- `getSemitones()`. -/
def getSemitones (p : PitchShiftProcessor) : ℝ := p.semitones

/-- `setCents(cents)`: clamp to `[-100, 100]`. -/
noncomputable def setCents (c : ℝ) (p : PitchShiftProcessor) :
    PitchShiftProcessor :=
  { p with cents := sclampR c (-100) 100 }

/-- `getCents()`. -/
def getCents (p : PitchShiftProcessor) : ℝ := p.cents

/-- `getPitchRatio()`: `pitchRatioFromSemitones(semitones + cents/100)`. -/
noncomputable def getPitchRatio (p : PitchShiftProcessor) : ℝ :=
  pitchRatioFromSemitones (p.semitones + p.cents / 100)

/-- `process(input, output, numSamples)`.  Null pointers are modelled by the
`inputNull`/`outputNull` flags, `numSamples` is `input.length` and `prevOut`
holds the prior contents of the output buffer.  The guard returns with state
and output untouched; otherwise the smoother targets are updated, the pitch
ratio is computed (direct parameters plus smoother snap in `Simple` mode,
smoothed parameters otherwise), and every mode routes the block through the
same `SimplePitchShifter`. -/
noncomputable def process (p : PitchShiftProcessor) (inputNull outputNull : Bool)
    (input prevOut : List ℝ) : PitchShiftProcessor × List ℝ :=
  if ¬p.prepared ∨ inputNull ∨ outputNull ∨ input.length = 0 then (p, prevOut)
  else
    let semSm := OnePoleSmoother.setTarget p.semitones p.semitoneSmoother
    let cenSm := OnePoleSmoother.setTarget p.cents p.centsSmoother
    let (totalSemitones, semSm, cenSm) :=
      if p.mode = PitchMode.Simple then
        (p.semitones + p.cents / 100, semSm.snapToTarget, cenSm.snapToTarget)
      else
        let (smoothedSemitones, semSm) := semSm.process
        let (smoothedCents, cenSm) := cenSm.process
        (smoothedSemitones + smoothedCents / 100, semSm, cenSm)
    let pitchRatio := pitchRatioFromSemitones totalSemitones
    let (shifter, out) := p.simpleShifter.process input pitchRatio
    ({ p with
        simpleShifter := shifter
        semitoneSmoother := semSm
        centsSmoother := cenSm }, out)

/-- `getLatencySamples()`: 0 unless prepared; `Simple` 0, `Granular`
`⌊sampleRate·0.046⌋`, `PhaseVocoder` `⌊sampleRate·0.116⌋`. -/
noncomputable def getLatencySamples (p : PitchShiftProcessor) : ℕ :=
  if ¬p.prepared then 0
  else
    match p.mode with
    | PitchMode.Simple => 0
    | PitchMode.Granular => (⌊p.sampleRate * 0.046⌋).toNat
    | PitchMode.PhaseVocoder => (⌊p.sampleRate * 0.116⌋).toNat

end PitchShiftProcessor

/-!
## `BitCrusher` (`bit_crusher.h`)

Samples, parameters and the quantization level count are real numbers; the
xorshift32 RNG state is a natural number reduced `% 2^32`.
-/

/-- One xorshift32 step (`nextRandom`, state update part):
`s ^= s << 13; s ^= s >> 17; s ^= s << 5` on 32 bits. -/
def xorshift32 (s : ℕ) : ℕ :=
  let s := (s ^^^ (s <<< 13)) % 2 ^ 32
  let s := s ^^^ (s >>> 17)
  (s ^^^ (s <<< 5)) % 2 ^ 32

/-- `BitCrusher` state. -/
structure BitCrusher where
  bitDepth : ℝ
  dither : ℝ
  levels : ℝ
  rngState : ℕ

namespace BitCrusher

/-- `kDefaultRngSeed = 0x12345678`. -/
def kDefaultRngSeed : ℕ := 0x12345678

/-- Default-constructed `BitCrusher`: 16 bits, no dither, 65535 levels. -/
def init : BitCrusher :=
  { bitDepth := 16, dither := 0, levels := 65535, rngState := kDefaultRngSeed }

/-- `nextRandom()`: advance the RNG and map the new 32-bit state to
`[-1, 1]` via `state * (2/(2^32-1)) - 1`. -/
noncomputable def nextRandom (c : BitCrusher) : ℝ × BitCrusher :=
  let s := xorshift32 c.rngState
  ((s : ℝ) * (2 / 4294967295) - 1, { c with rngState := s })

/-- `updateQuantizationLevels()`: `levels = 2^bitDepth - 1` (real power for
fractional depths), floored at 1. -/
noncomputable def updateQuantizationLevels (c : BitCrusher) : BitCrusher :=
  let levels := (2 : ℝ) ^ c.bitDepth - 1
  { c with levels := if levels < 1 then 1 else levels }

/-- `setBitDepth(bits)`: clamp to `[4, 16]` and recompute the levels. -/
noncomputable def setBitDepth (bits : ℝ) (c : BitCrusher) : BitCrusher :=
  updateQuantizationLevels { c with bitDepth := sclampR bits 4 16 }

/-- `setDither(amount)`: clamp to `[0, 1]`. -/
noncomputable def setDither (amount : ℝ) (c : BitCrusher) : BitCrusher :=
  { c with dither := sclampR amount 0 1 }

/-- `reset()`: restore the default RNG seed. -/
def reset (c : BitCrusher) : BitCrusher :=
  { c with rngState := kDefaultRngSeed }

/-- `process(input)`: normalize to `[0, 1]`, optionally add TPDF dither
(two RNG draws), scale by `levels`, `std::round`, clamp to `[0, levels]`,
denormalize.  Returns the output sample and the updated state. -/
noncomputable def process (c : BitCrusher) (input : ℝ) : ℝ × BitCrusher :=
  let normalized := (input + 1) * 0.5
  let (normalized, c) :=
    if c.dither > 0 then
      let (r1, c) := c.nextRandom
      let (r2, c) := c.nextRandom
      (normalized + (r1 + r2) * c.dither / c.levels, c)
    else (normalized, c)
  let scaled := normalized * c.levels
  let quantized := cround scaled
  let quantized := sclampR quantized 0 c.levels
  ((quantized / c.levels) * 2 - 1, c)

end BitCrusher

/-!
## `Oversampler` (`oversampler.h`)

The whole FIR pipeline is rational arithmetic, so samples are `ℚ` and every
definition is computable.
-/

/-- Thread a per-sample step function through a block of samples, collecting
the outputs (the shape of every `processBlock` in the source). -/
def runBlock {σ : Type} (step : σ → ℚ → σ × ℚ) : σ → List ℚ → σ × List ℚ
  | s, [] => (s, [])
  | s, x :: xs =>
    let (s', y) := step s x
    let (s'', ys) := runBlock step s' xs
    (s'', y :: ys)

/-- `detail::kStandardFirCoeffs`: the 16 tabulated values for the 31-tap
standard-quality halfband filter (exact decimal values of the float
literals). -/
def kStandardFirCoeffs : List ℚ :=
  [-0.00057786, 0.00241797, -0.00655826, 0.01444389,
   -0.02807887, 0.05181259, -0.09887288, 0.31565937,
    0.50000000, 0.31565937, -0.09887288, 0.05181259,
   -0.02807887, 0.01444389, -0.00655826, 0.00241797]

/-- `detail::kHighFirCoeffs`: the 32 tabulated values for the 63-tap
high-quality halfband filter. -/
def kHighFirCoeffs : List ℚ :=
  [ 0.00002747, -0.00009570, 0.00023925, -0.00049938,
    0.00092645, -0.00157925, 0.00252505, -0.00384040,
    0.00561275, -0.00794197, 0.01094422, -0.01475671,
    0.01956047, -0.02561143, 0.03330618, -0.04330415,
    0.05680847, -0.07605218, 0.10597531, -0.16066185,
    0.28205469, 0.50000000, 0.28205469, -0.16066185,
    0.10597531, -0.07605218, 0.05680847, -0.04330415,
    0.03330618, -0.02561143, 0.01956047, -0.01475671]

/-- `kStandardFirLength = 31`. -/
def kStandardFirLength : ℕ := 31

/-- `kHighFirLength = 63`. -/
def kHighFirLength : ℕ := 63

/-- `HalfbandFilter<NumTaps>` state: the template parameter, the installed
coefficients and the delay line (both of length `numTaps`). -/
structure HBFilter where
  numTaps : ℕ
  coeffs : List ℚ
  delay : List ℚ
deriving Repr

namespace HBFilter

/-- `kLatency = (NumTaps - 1) / 2`. -/
def kLatency (f : HBFilter) : ℕ := (f.numTaps - 1) / 2

/-- Default-constructed filter: zero coefficients, zero delay line. -/
def initFilter (numTaps : ℕ) : HBFilter :=
  { numTaps := numTaps
    coeffs := List.replicate numTaps 0
    delay := List.replicate numTaps 0 }

/-- `setCoefficients(coeffs, numCoeffs)`: zero the array, write `0.5` at the
center, then for `i < min(numCoeffs, NumTaps/2)` with `2i+1 < kLatency`
mirror `coeffs[i]` to the two taps at odd offset `2i+1` from the center. -/
def setCoefficients (f : HBFilter) (table : List ℚ) : HBFilter :=
  let kLat := f.kLatency
  let base := (List.replicate f.numTaps (0 : ℚ)).set kLat (1/2)
  let m := min table.length (f.numTaps / 2)
  let coeffs := (List.range m).foldl
    (fun acc i =>
      let oddIdx := 2 * i + 1
      if oddIdx < kLat then
        ((acc.set (kLat - oddIdx) (table.getD i 0)).set (kLat + oddIdx)
          (table.getD i 0))
      else acc)
    base
  { f with coeffs := coeffs }

/-- `process(input)`: shift the delay line, insert the input, convolve with
the coefficients, flush outputs below `1e-15` to zero. -/
def process (f : HBFilter) (input : ℚ) : HBFilter × ℚ :=
  let delay := input :: f.delay.take (f.numTaps - 1)
  let output := (List.zipWith (· * ·) delay f.coeffs).sum
  let output := if |output| < 1 / 10 ^ 15 then 0 else output
  ({ f with delay := delay }, output)

/-- `processBlock(buffer, numSamples)`: per-sample `process` over a block. -/
def processBlock (f : HBFilter) (buffer : List ℚ) : HBFilter × List ℚ :=
  runBlock process f buffer

/-- `reset()`: zero the delay line. -/
def reset (f : HBFilter) : HBFilter :=
  { f with delay := List.replicate f.numTaps 0 }

end HBFilter

/-- One second-order IIR section with its direct-form state.

Modelled from the spec: `biquad.h` (`BiquadCascade`, `setButterworth`) is not
among the provided sources.  Spec §4.3 and the data model (§3 `FilterState`)
describe cascaded Butterworth IIR lowpass filters with per-instance ring
buffer/coefficient state; the standard second-order difference equation
`y = b0·x + b1·x1 + b2·x2 - a1·y1 - a2·y2` is used for the step.  The
Butterworth coefficient computation itself stays a parameter (`butter`)
of `Oversampler.prepare`. -/
structure BiquadSection where
  b0 : ℚ
  b1 : ℚ
  b2 : ℚ
  a1 : ℚ
  a2 : ℚ
  x1 : ℚ
  x2 : ℚ
  y1 : ℚ
  y2 : ℚ
deriving Repr

namespace BiquadSection

/-- One step of the second-order difference equation. -/
def step (s : BiquadSection) (x : ℚ) : BiquadSection × ℚ :=
  let y := s.b0 * x + s.b1 * s.x1 + s.b2 * s.x2 - s.a1 * s.y1 - s.a2 * s.y2
  ({ s with x1 := x, x2 := s.x1, y1 := y, y2 := s.y1 }, y)

/-- Clear the section state, keeping the coefficients. -/
def resetState (s : BiquadSection) : BiquadSection :=
  { s with x1 := 0, x2 := 0, y1 := 0, y2 := 0 }

/-- All-zero section (default-constructed filter bank entry). -/
def zero : BiquadSection :=
  { b0 := 0, b1 := 0, b2 := 0, a1 := 0, a2 := 0, x1 := 0, x2 := 0,
    y1 := 0, y2 := 0 }

end BiquadSection

/-- One sample through a cascade of biquad sections in series
(`BiquadCascade<4>::process`). -/
def cascadeStep : List BiquadSection → ℚ → List BiquadSection × ℚ
  | [], x => ([], x)
  | s :: rest, x =>
    let (s', y) := s.step x
    let (rest', z) := cascadeStep rest y
    (s' :: rest', z)

/-- A block through a biquad cascade (`BiquadCascade<4>::processBlock`). -/
def cascadeBlock (c : List BiquadSection) (buffer : List ℚ) :
    List BiquadSection × List ℚ :=
  runBlock cascadeStep c buffer

/-- `OversamplingQuality`. -/
inductive OversamplingQuality where
  | Economy
  | Standard
  | High
deriving DecidableEq, Repr

/-- `OversamplingMode`. -/
inductive OversamplingMode where
  | ZeroLatency
  | LinearPhase
deriving DecidableEq, Repr

/-- `Oversampler<Factor, NumChannels>` state.  The template parameters are
the `factor` and `numChannels` fields; the per-channel/per-stage filter banks
are lists indexed by `getFilterIndex`.  The scratch vectors
(`oversampledBuffer_`, `tempBuffer_`) are not part of the model state: they
are written before being read on every call and are never observed across
calls by any claim. -/
structure Oversampler where
  factor : ℕ
  numChannels : ℕ
  quality : OversamplingQuality
  mode : OversamplingMode
  sampleRate : ℚ
  maxBlockSize : ℕ
  latencySamples : ℕ
  prepared : Bool
  useFir : Bool
  iirUp : List (List BiquadSection)
  iirDown : List (List BiquadSection)
  firStdUp : List HBFilter
  firStdDown : List HBFilter
  firHighUp : List HBFilter
  firHighDown : List HBFilter
deriving Repr

namespace Oversampler

/-- `numStages()`: 1 for 2x, 2 for 4x. -/
def numStages (o : Oversampler) : ℕ := if o.factor = 2 then 1 else 2

/-- `getFilterIndex(channel, stage) = channel * kNumStages + stage`. -/
def getFilterIndex (o : Oversampler) (channel stage : ℕ) : ℕ :=
  channel * o.numStages + stage

/-- Default-constructed oversampler for the given template parameters. -/
def initOs (factor numChannels : ℕ) : Oversampler :=
  let nBanks := numChannels * (if factor = 2 then 1 else 2)
  { factor := factor
    numChannels := numChannels
    quality := OversamplingQuality.Economy
    mode := OversamplingMode.ZeroLatency
    sampleRate := 44100
    maxBlockSize := 512
    latencySamples := 0
    prepared := false
    useFir := false
    iirUp := List.replicate nBanks (List.replicate 4 BiquadSection.zero)
    iirDown := List.replicate nBanks (List.replicate 4 BiquadSection.zero)
    firStdUp := List.replicate nBanks (HBFilter.initFilter kStandardFirLength)
    firStdDown := List.replicate nBanks (HBFilter.initFilter kStandardFirLength)
    firHighUp := List.replicate nBanks (HBFilter.initFilter kHighFirLength)
    firHighDown := List.replicate nBanks (HBFilter.initFilter kHighFirLength) }

/-- `configureFirFilters()`: install the quality's coefficient table into
every standard- resp. high-quality FIR filter, then reset all FIR delay
lines. -/
def configureFirFilters (o : Oversampler) : Oversampler :=
  let o :=
    if o.quality = OversamplingQuality.Standard then
      { o with
        firStdUp := o.firStdUp.map (·.setCoefficients kStandardFirCoeffs)
        firStdDown := o.firStdDown.map (·.setCoefficients kStandardFirCoeffs) }
    else if o.quality = OversamplingQuality.High then
      { o with
        firHighUp := o.firHighUp.map (·.setCoefficients kHighFirCoeffs)
        firHighDown := o.firHighDown.map (·.setCoefficients kHighFirCoeffs) }
    else o
  { o with
    firStdUp := o.firStdUp.map HBFilter.reset
    firStdDown := o.firStdDown.map HBFilter.reset
    firHighUp := o.firHighUp.map HBFilter.reset
    firHighDown := o.firHighDown.map HBFilter.reset }

/-- `configureIirFilters()`: configure each stage's up/down cascade as a
Butterworth lowpass at `0.45·sampleRate` for the stage sample rate
`sampleRate·2^(stage+1)` (the coefficient computation `butter` stands for the
missing `setButterworth`), then reset all IIR filter states. -/
def configureIirFilters (butter : ℚ → ℚ → List BiquadSection)
    (o : Oversampler) : Oversampler :=
  let ns := o.numStages
  let baseCutoff := o.sampleRate * 0.45
  let mk : ℕ → List BiquadSection := fun idx =>
    (butter baseCutoff (o.sampleRate * 2 ^ (idx % ns + 1))).map
      BiquadSection.resetState
  { o with
    iirUp := (List.range (o.numChannels * ns)).map mk
    iirDown := (List.range (o.numChannels * ns)).map mk }

/-- `prepare(sampleRate, maxBlockSize, quality, mode)`: reject non-positive
sample rates, set the configuration, derive `useFir_` and the reported
latency, configure the selected filter bank, mark prepared. -/
def prepare (butter : ℚ → ℚ → List BiquadSection) (sampleRate : ℚ)
    (maxBlockSize : ℕ) (quality : OversamplingQuality)
    (mode : OversamplingMode) (o : Oversampler) : Oversampler :=
  if sampleRate ≤ 0 then o
  else
    let useFir := quality ≠ OversamplingQuality.Economy ∧
      mode = OversamplingMode.LinearPhase
    let latencyPerStage : ℕ :=
      if quality = OversamplingQuality.Standard then 15
      else if quality = OversamplingQuality.High then 31
      else 0
    let latencySamples : ℕ :=
      if ¬useFir then 0
      else if o.factor = 2 then latencyPerStage
      else latencyPerStage * 2
    let o :=
      { o with
        sampleRate := sampleRate
        maxBlockSize := maxBlockSize
        quality := quality
        mode := mode
        useFir := decide useFir
        latencySamples := latencySamples }
    let o := if decide useFir then o.configureFirFilters
      else o.configureIirFilters butter
    { o with prepared := true }

/-- `reset()`: clear every filter state, keep the configuration. -/
def resetOs (o : Oversampler) : Oversampler :=
  { o with
    iirUp := o.iirUp.map (·.map BiquadSection.resetState)
    iirDown := o.iirDown.map (·.map BiquadSection.resetState)
    firStdUp := o.firStdUp.map HBFilter.reset
    firStdDown := o.firStdDown.map HBFilter.reset
    firHighUp := o.firHighUp.map HBFilter.reset
    firHighDown := o.firHighDown.map HBFilter.reset }

/-- `getLatency()`. -/
def getLatency (o : Oversampler) : ℕ := o.latencySamples

/-- Zero-stuffing with gain compensation: `output[2i] = input[i]*2`,
`output[2i+1] = 0` (also the functional meaning of the backwards in-place
expansion loop of the 4x stage 2). -/
def zeroStuff2 : List ℚ → List ℚ
  | [] => []
  | x :: xs => x * 2 :: 0 :: zeroStuff2 xs

/-- Decimation: `output[i] = input[2i]` (also the functional meaning of the
in-place `temp[i] = temp[i*2]` loops). -/
def decimate2 : List ℚ → List ℚ
  | [] => []
  | [x] => [x]
  | x :: _ :: xs => x :: decimate2 xs

/-- `upsampleIir`: zero-stuff and lowpass per 2x stage (one stage for 2x,
two cascaded stages for 4x). -/
def upsampleIir (o : Oversampler) (input : List ℚ) (channel : ℕ) :
    Oversampler × List ℚ :=
  if o.factor = 2 then
    let idx := o.getFilterIndex channel 0
    let (c', out) := cascadeBlock (o.iirUp.getD idx []) (zeroStuff2 input)
    ({ o with iirUp := o.iirUp.set idx c' }, out)
  else
    let idx0 := o.getFilterIndex channel 0
    let idx1 := o.getFilterIndex channel 1
    let (c0', seq1) := cascadeBlock (o.iirUp.getD idx0 []) (zeroStuff2 input)
    let (c1', out) := cascadeBlock (o.iirUp.getD idx1 []) (zeroStuff2 seq1)
    ({ o with iirUp := (o.iirUp.set idx0 c0').set idx1 c1' }, out)

/-- `downsampleIir`: lowpass and decimate per 2x stage (stage order reversed
for 4x). -/
def downsampleIir (o : Oversampler) (input : List ℚ) (channel : ℕ) :
    Oversampler × List ℚ :=
  if o.factor = 2 then
    let idx := o.getFilterIndex channel 0
    let (c', filtered) := cascadeBlock (o.iirDown.getD idx []) input
    ({ o with iirDown := o.iirDown.set idx c' }, decimate2 filtered)
  else
    let idx0 := o.getFilterIndex channel 0
    let idx1 := o.getFilterIndex channel 1
    let (c1', f1) := cascadeBlock (o.iirDown.getD idx1 []) input
    let (c0', f2) := cascadeBlock (o.iirDown.getD idx0 []) (decimate2 f1)
    ({ o with iirDown := (o.iirDown.set idx1 c1').set idx0 c0' },
      decimate2 f2)

/-- `upsampleFir`: like `upsampleIir` with the quality's halfband filters
(`Standard` picks the 31-tap bank, every other quality reaching the FIR path
picks the 63-tap bank). -/
def upsampleFir (o : Oversampler) (input : List ℚ) (channel : ℕ) :
    Oversampler × List ℚ :=
  if o.quality = OversamplingQuality.Standard then
    if o.factor = 2 then
      let idx := o.getFilterIndex channel 0
      let (f', out) :=
        (o.firStdUp.getD idx (HBFilter.initFilter kStandardFirLength)).processBlock
          (zeroStuff2 input)
      ({ o with firStdUp := o.firStdUp.set idx f' }, out)
    else
      let idx0 := o.getFilterIndex channel 0
      let idx1 := o.getFilterIndex channel 1
      let (f0', seq1) :=
        (o.firStdUp.getD idx0 (HBFilter.initFilter kStandardFirLength)).processBlock
          (zeroStuff2 input)
      let (f1', out) :=
        (o.firStdUp.getD idx1 (HBFilter.initFilter kStandardFirLength)).processBlock
          (zeroStuff2 seq1)
      ({ o with firStdUp := (o.firStdUp.set idx0 f0').set idx1 f1' }, out)
  else
    if o.factor = 2 then
      let idx := o.getFilterIndex channel 0
      let (f', out) :=
        (o.firHighUp.getD idx (HBFilter.initFilter kHighFirLength)).processBlock
          (zeroStuff2 input)
      ({ o with firHighUp := o.firHighUp.set idx f' }, out)
    else
      let idx0 := o.getFilterIndex channel 0
      let idx1 := o.getFilterIndex channel 1
      let (f0', seq1) :=
        (o.firHighUp.getD idx0 (HBFilter.initFilter kHighFirLength)).processBlock
          (zeroStuff2 input)
      let (f1', out) :=
        (o.firHighUp.getD idx1 (HBFilter.initFilter kHighFirLength)).processBlock
          (zeroStuff2 seq1)
      ({ o with firHighUp := (o.firHighUp.set idx0 f0').set idx1 f1' }, out)

/-- `downsampleFir`: like `downsampleIir` with the quality's halfband
filters. -/
def downsampleFir (o : Oversampler) (input : List ℚ) (channel : ℕ) :
    Oversampler × List ℚ :=
  if o.quality = OversamplingQuality.Standard then
    if o.factor = 2 then
      let idx := o.getFilterIndex channel 0
      let (f', filtered) :=
        (o.firStdDown.getD idx (HBFilter.initFilter kStandardFirLength)).processBlock
          input
      ({ o with firStdDown := o.firStdDown.set idx f' }, decimate2 filtered)
    else
      let idx0 := o.getFilterIndex channel 0
      let idx1 := o.getFilterIndex channel 1
      let (f1', g1) :=
        (o.firStdDown.getD idx1 (HBFilter.initFilter kStandardFirLength)).processBlock
          input
      let (f0', g2) :=
        (o.firStdDown.getD idx0 (HBFilter.initFilter kStandardFirLength)).processBlock
          (decimate2 g1)
      ({ o with firStdDown := (o.firStdDown.set idx1 f1').set idx0 f0' },
        decimate2 g2)
  else
    if o.factor = 2 then
      let idx := o.getFilterIndex channel 0
      let (f', filtered) :=
        (o.firHighDown.getD idx (HBFilter.initFilter kHighFirLength)).processBlock
          input
      ({ o with firHighDown := o.firHighDown.set idx f' }, decimate2 filtered)
    else
      let idx0 := o.getFilterIndex channel 0
      let idx1 := o.getFilterIndex channel 1
      let (f1', g1) :=
        (o.firHighDown.getD idx1 (HBFilter.initFilter kHighFirLength)).processBlock
          input
      let (f0', g2) :=
        (o.firHighDown.getD idx0 (HBFilter.initFilter kHighFirLength)).processBlock
          (decimate2 g1)
      ({ o with firHighDown := (o.firHighDown.set idx1 f1').set idx0 f0' },
        decimate2 g2)

/-- `upsample(input, output, numSamples, channel)`: zero-fill when unprepared
or the channel is out of range, else dispatch on `useFir_`. -/
def upsample (o : Oversampler) (input : List ℚ) (channel : ℕ) :
    Oversampler × List ℚ :=
  if ¬o.prepared ∨ o.numChannels ≤ channel then
    (o, List.replicate (input.length * o.factor) 0)
  else if o.useFir then upsampleFir o input channel
  else upsampleIir o input channel

/-- `downsample(input, output, numSamples, channel)`: zero-fill when
unprepared or the channel is out of range, else dispatch on `useFir_`. -/
def downsample (o : Oversampler) (input : List ℚ) (numSamples channel : ℕ) :
    Oversampler × List ℚ :=
  if ¬o.prepared ∨ o.numChannels ≤ channel then
    (o, List.replicate numSamples 0)
  else if o.useFir then downsampleFir o input channel
  else downsampleIir o input channel

/-- The mono `process(buffer, numSamples, callback)`: guard (unprepared or
oversized block → return with the buffer untouched), upsample, run the
callback on the oversampled buffer, downsample.  A non-null callback is
assumed (the `if (callback)` test). -/
def processMono (o : Oversampler) (buffer : List ℚ)
    (callback : List ℚ → List ℚ) : Oversampler × List ℚ :=
  if ¬o.prepared ∨ o.maxBlockSize < buffer.length then (o, buffer)
  else
    let n := buffer.length
    let (o, osBuffer) := upsample o buffer 0
    let osBuffer := callback osBuffer
    downsample o osBuffer n 0

/-- The stereo `process(left, right, numSamples, callback)`: same guard, then
per-channel upsample, callback, per-channel downsample. -/
def processStereo (o : Oversampler) (left right : List ℚ)
    (callback : List ℚ → List ℚ → List ℚ × List ℚ) :
    Oversampler × List ℚ × List ℚ :=
  if ¬o.prepared ∨ o.maxBlockSize < left.length then (o, left, right)
  else
    let n := left.length
    let (o, osLeft) := upsample o left 0
    let (o, osRight) := upsample o right 1
    let (osLeft, osRight) := callback osLeft osRight
    let (o, outLeft) := downsample o osLeft n 0
    let (o, outRight) := downsample o osRight n 1
    (o, outLeft, outRight)

end Oversampler

/-!
## Helper lemmas
-/

/-- `std::clamp` stays inside the clamping interval. -/
theorem sclampR_mem {v lo hi : ℝ} (h : lo ≤ hi) :
    lo ≤ sclampR v lo hi ∧ sclampR v lo hi ≤ hi := by
  unfold sclampR
  split
  · exact ⟨le_refl lo, h⟩
  · split
    · exact ⟨h, le_refl hi⟩
    · constructor <;> linarith [not_lt.mp (by assumption : ¬v < lo)]

/-- `Real.log 2` is positive. -/
theorem log_two_pos' : 0 < Real.log 2 := Real.log_pos (by norm_num)

/-!
## C3: pitch parameter clamping and `getPitchRatio`
-/

/-- **C3.**  After `setSemitones(s)` and `setCents(c)`, `getSemitones()` is
`clamp(s, -24, 24)`, `getCents()` is `clamp(c, -100, 100)`, and
`getPitchRatio()` is `2^((clampedSemitones + clampedCents/100)/12)`. -/
theorem C3_set_get_pitch_ratio (s c : ℝ) (p : PitchShiftProcessor) :
    PitchShiftProcessor.getSemitones
        (PitchShiftProcessor.setCents c (PitchShiftProcessor.setSemitones s p))
      = sclampR s (-24) 24 ∧
    PitchShiftProcessor.getCents
        (PitchShiftProcessor.setCents c (PitchShiftProcessor.setSemitones s p))
      = sclampR c (-100) 100 ∧
    PitchShiftProcessor.getPitchRatio
        (PitchShiftProcessor.setCents c (PitchShiftProcessor.setSemitones s p))
      = (2 : ℝ) ^ ((sclampR s (-24) 24 + sclampR c (-100) 100 / 100) / 12) := by
  refine ⟨rfl, rfl, ?_⟩
  rw [Real.rpow_def_of_pos (by norm_num : (0:ℝ) < 2)]
  simp only [PitchShiftProcessor.getPitchRatio, pitchRatioFromSemitones,
    kLn2Over12, PitchShiftProcessor.setCents, PitchShiftProcessor.setSemitones]
  congr 1
  ring

/-!
## C9: the semitone/ratio conversions are mutual inverses
-/

/-- **C9.**  `semitonesFromPitchRatio ∘ pitchRatioFromSemitones` is within
`1e-4` of the identity on `[-24, 24]`, and
`pitchRatioFromSemitones ∘ semitonesFromPitchRatio` is within `1e-4` of the
identity on `[2^-2, 2^2]` (both round trips are in fact exact in the
real-number model). -/
theorem C9_conversions_mutual_inverses :
    (∀ s : ℝ, -24 ≤ s → s ≤ 24 →
      |semitonesFromPitchRatio (pitchRatioFromSemitones s) - s| ≤ 1/10000) ∧
    (∀ r : ℝ, 1/4 ≤ r → r ≤ 4 →
      |pitchRatioFromSemitones (semitonesFromPitchRatio r) - r| ≤ 1/10000) := by
  constructor
  · intro s _ _
    have hpos : 0 < pitchRatioFromSemitones s := Real.exp_pos _
    unfold semitonesFromPitchRatio
    rw [if_neg (not_le.mpr hpos)]
    unfold pitchRatioFromSemitones
    rw [Real.log_exp]
    have : s * kLn2Over12 * k12OverLn2 = s := by
      unfold kLn2Over12 k12OverLn2
      field_simp
    rw [this]
    simp
  · intro r hr _
    have hrpos : 0 < r := by linarith
    unfold semitonesFromPitchRatio
    rw [if_neg (not_le.mpr hrpos)]
    unfold pitchRatioFromSemitones
    have : Real.log r * k12OverLn2 * kLn2Over12 = Real.log r := by
      unfold kLn2Over12 k12OverLn2
      field_simp
    rw [this, Real.exp_log hrpos]
    simp

/-- Witness for C9 at `s = 12` and `r = 2`. -/
theorem C9_witness :
    |semitonesFromPitchRatio (pitchRatioFromSemitones 12) - 12| ≤ 1/10000 ∧
    |pitchRatioFromSemitones (semitonesFromPitchRatio 2) - 2| ≤ 1/10000 :=
  ⟨C9_conversions_mutual_inverses.1 12 (by norm_num) (by norm_num),
   C9_conversions_mutual_inverses.2 2 (by norm_num) (by norm_num)⟩

/-!
## C6: Simple mode at zero semitones/cents is a bit-exact passthrough
-/

/-- **C6.**  For a prepared processor in `Simple` mode with
`semitones == 0` and `cents == 0` (so the pitch ratio is exactly 1),
`process` writes the input samples to the output unchanged. -/
theorem C6_simple_unity_passthrough (p : PitchShiftProcessor)
    (input prevOut : List ℝ) (hp : p.prepared = true)
    (hm : p.mode = PitchMode.Simple) (hs : p.semitones = 0)
    (hc : p.cents = 0) (hn : input ≠ []) :
    (PitchShiftProcessor.process p false false input prevOut).2 = input := by
  have hlen : ¬input.length = 0 := by
    simpa [List.length_eq_zero] using hn
  simp only [PitchShiftProcessor.process, hp, hm, hs, hc, hlen,
    SimplePitchShifter.process, pitchRatioFromSemitones]
  norm_num

/-- Witness for C6 on a concrete prepared state and the block `[1, 2, 3]`. -/
theorem C6_witness :
    (PitchShiftProcessor.process
      { PitchShiftProcessor.init with prepared := true } false false
      [1, 2, 3] [0, 0, 0]).2 = [1, 2, 3] :=
  C6_simple_unity_passthrough _ _ _ rfl rfl rfl rfl (by simp)

/-!
## C5: Granular and PhaseVocoder fall back to the Simple algorithm
-/

/-- **C5.**  For a prepared processor whose smoothers have settled at the
current parameter values (`current = semitones` resp. `current = cents`, the
state reached once smoothing has converged, e.g. right after `reset()` with
zero parameters), `process` in `Granular` mode and in `PhaseVocoder` mode
produces exactly the same output samples as `process` in `Simple` mode:
all three modes route the block through the same `SimplePitchShifter`. -/
theorem C5_all_modes_route_through_simple (p : PitchShiftProcessor)
    (input prevOut : List ℝ) (hp : p.prepared = true)
    (hsem : p.semitoneSmoother.current = p.semitones)
    (hcen : p.centsSmoother.current = p.cents) :
    (PitchShiftProcessor.process (PitchShiftProcessor.setMode
        PitchMode.Granular p) false false input prevOut).2 =
      (PitchShiftProcessor.process (PitchShiftProcessor.setMode
        PitchMode.Simple p) false false input prevOut).2 ∧
    (PitchShiftProcessor.process (PitchShiftProcessor.setMode
        PitchMode.PhaseVocoder p) false false input prevOut).2 =
      (PitchShiftProcessor.process (PitchShiftProcessor.setMode
        PitchMode.Simple p) false false input prevOut).2 := by
  rcases eq_or_ne input.length 0 with hlen | hlen
  · simp [PitchShiftProcessor.process, hlen, PitchShiftProcessor.setMode]
  · constructor <;>
    · simp only [PitchShiftProcessor.process, PitchShiftProcessor.setMode, hp,
        hlen, OnePoleSmoother.process, OnePoleSmoother.setTarget,
        OnePoleSmoother.snapToTarget, hsem, hcen]
      norm_num [hsem, hcen]

/-- Witness for C5 on a concrete prepared, settled state. -/
theorem C5_witness :
    (PitchShiftProcessor.process (PitchShiftProcessor.setMode
        PitchMode.Granular { PitchShiftProcessor.init with prepared := true })
        false false [1, 0] [0, 0]).2 =
      (PitchShiftProcessor.process (PitchShiftProcessor.setMode
        PitchMode.Simple { PitchShiftProcessor.init with prepared := true })
        false false [1, 0] [0, 0]).2 :=
  (C5_all_modes_route_through_simple _ _ _ rfl rfl rfl).1

/-!
## C2: guard behavior of the `process` entry points
-/

/-- **C2 counterexample.**  A `PitchShiftProcessor` prepared with
`maxBlockSize = 1` and then called with `numSamples = 2 > maxBlock` does
*not* leave the output buffer zero-filled: the oversized block is not
rejected at all — it is processed normally (here, passed through), so the
output buffer ends up holding the input `[1, 1]`, not `[0, 0]`. -/
theorem C2_counterexample :
    (PitchShiftProcessor.process
      (PitchShiftProcessor.prepare 44100 1 PitchShiftProcessor.init)
      false false [1, 1] [0, 0]).2 ≠ [0, 0] := by
  simp only [PitchShiftProcessor.process, PitchShiftProcessor.prepare,
    PitchShiftProcessor.reset, PitchShiftProcessor.init,
    SimplePitchShifter.process, pitchRatioFromSemitones]
  norm_num

/-- **C2 (amended).**  Unusable call states are handled by returning
immediately: the internal state is unchanged and the output buffer keeps its
prior contents (it is *not* zero-filled).  For the `Oversampler` the
unusable states of `process` are "unprepared" and "block larger than
`maxBlockSize`"; for the `PitchShiftProcessor` they are "unprepared", "null
input/output pointer" and "zero samples" — an oversized block is *not*
checked by `PitchShiftProcessor::process` (see the counterexample). -/
theorem C2_amended_guards :
    (∀ (o : Oversampler) (buf : List ℚ) (cb : List ℚ → List ℚ),
      o.prepared = false ∨ o.maxBlockSize < buf.length →
      Oversampler.processMono o buf cb = (o, buf)) ∧
    (∀ (o : Oversampler) (l r : List ℚ)
      (cb : List ℚ → List ℚ → List ℚ × List ℚ),
      o.prepared = false ∨ o.maxBlockSize < l.length →
      Oversampler.processStereo o l r cb = (o, l, r)) ∧
    (∀ (p : PitchShiftProcessor) (inN outN : Bool) (input prevOut : List ℝ),
      p.prepared = false ∨ inN = true ∨ outN = true ∨ input.length = 0 →
      PitchShiftProcessor.process p inN outN input prevOut = (p, prevOut)) := by
  refine ⟨fun o buf cb h => ?_, fun o l r cb h => ?_,
    fun p inN outN input prevOut h => ?_⟩
  · rcases h with h | h <;> simp [Oversampler.processMono, h]
  · rcases h with h | h <;> simp [Oversampler.processStereo, h]
  · rcases h with h | h | h | h <;> simp [PitchShiftProcessor.process, h]

/-- Witness for the amended C2 on concrete unprepared instances. -/
theorem C2_witness :
    Oversampler.processMono (Oversampler.initOs 2 1) [1] id
        = (Oversampler.initOs 2 1, [1]) ∧
    Oversampler.processStereo (Oversampler.initOs 4 2) [1] [2]
        (fun a b => (a, b)) = (Oversampler.initOs 4 2, [1], [2]) ∧
    PitchShiftProcessor.process PitchShiftProcessor.init false false [1] [5]
        = (PitchShiftProcessor.init, [5]) :=
  ⟨C2_amended_guards.1 _ _ _ (Or.inl rfl),
   C2_amended_guards.2.1 _ _ _ _ (Or.inl rfl),
   C2_amended_guards.2.2 _ _ _ _ _ (Or.inl rfl)⟩

/-!
## C4: reported latency after `prepare`
-/

/-- **C4.**  After `prepare` at a positive sample rate on a 2x or 4x
oversampler: `getLatency()` is 0 whenever the mode is `ZeroLatency` or the
quality is `Economy`; under `LinearPhase` the latency is strictly increasing
along `Economy < Standard < High`; and the FIR configurations report the
per-stage latency `(numTaps-1)/2` at 2x (15 for `Standard`, 31 for `High`)
and twice that value at 4x. -/
theorem C4_latency_after_prepare (butter : ℚ → ℚ → List BiquadSection)
    (sr : ℚ) (mb : ℕ) (o : Oversampler) (hsr : 0 < sr)
    (hf : o.factor = 2 ∨ o.factor = 4) :
    (∀ q, Oversampler.getLatency
      (Oversampler.prepare butter sr mb q OversamplingMode.ZeroLatency o)
        = 0) ∧
    (∀ m, Oversampler.getLatency
      (Oversampler.prepare butter sr mb OversamplingQuality.Economy m o)
        = 0) ∧
    Oversampler.getLatency (Oversampler.prepare butter sr mb
        OversamplingQuality.Standard OversamplingMode.LinearPhase o)
      = (if o.factor = 2 then 15 else 30) ∧
    Oversampler.getLatency (Oversampler.prepare butter sr mb
        OversamplingQuality.High OversamplingMode.LinearPhase o)
      = (if o.factor = 2 then 31 else 62) ∧
    Oversampler.getLatency (Oversampler.prepare butter sr mb
        OversamplingQuality.Economy OversamplingMode.LinearPhase o) <
      Oversampler.getLatency (Oversampler.prepare butter sr mb
        OversamplingQuality.Standard OversamplingMode.LinearPhase o) ∧
    Oversampler.getLatency (Oversampler.prepare butter sr mb
        OversamplingQuality.Standard OversamplingMode.LinearPhase o) <
      Oversampler.getLatency (Oversampler.prepare butter sr mb
        OversamplingQuality.High OversamplingMode.LinearPhase o) := by
  have hsr' : ¬sr ≤ 0 := not_le.mpr hsr
  refine ⟨fun q => ?_, fun m => ?_, ?_, ?_, ?_, ?_⟩ <;>
    [skip; skip; rcases hf with hfa | hfa; rcases hf with hfa | hfa;
     rcases hf with hfa | hfa; rcases hf with hfa | hfa] <;>
    simp [Oversampler.prepare, Oversampler.getLatency,
      Oversampler.configureFirFilters, Oversampler.configureIirFilters,
      hsr', apply_ite, *]

/-- Witness for C4 at a concrete 2x mono oversampler and 44.1 kHz. -/
theorem C4_witness :
    Oversampler.getLatency (Oversampler.prepare (fun _ _ => []) 44100 512
        OversamplingQuality.Standard OversamplingMode.LinearPhase
        (Oversampler.initOs 2 1))
      = (if (Oversampler.initOs 2 1).factor = 2 then 15 else 30) :=
  (C4_latency_after_prepare (fun _ _ => []) 44100 512 (Oversampler.initOs 2 1)
    (by norm_num) (Or.inl rfl)).2.2.1

/-!
## C7: BitCrusher output range
-/

/-- The re-normalized clamped quantizer value lies in `[-1, 1]`. -/
theorem bitcrusher_quant_mem (L v : ℝ) (hL : 1 ≤ L) :
    -1 ≤ sclampR v 0 L / L * 2 - 1 ∧ sclampR v 0 L / L * 2 - 1 ≤ 1 := by
  have hLpos : (0:ℝ) < L := by linarith
  obtain ⟨h0, hle⟩ := sclampR_mem (v := v) (by linarith : (0:ℝ) ≤ L)
  have h1 : 0 ≤ sclampR v 0 L / L := div_nonneg h0 hLpos.le
  have h2 : sclampR v 0 L / L ≤ 1 := (div_le_one hLpos).mpr hle
  constructor <;> linarith

/-- `setBitDepth` always leaves at least one quantization level. -/
theorem BitCrusher.one_le_levels_setBitDepth (b : ℝ) (c : BitCrusher) :
    1 ≤ (BitCrusher.setBitDepth b c).levels := by
  unfold BitCrusher.setBitDepth BitCrusher.updateQuantizationLevels
  dsimp only
  split
  · exact le_refl 1
  · exact le_of_not_lt (by assumption)

/-- `process` keeps its output in `[-1, 1]` whenever at least one
quantization level is configured (for any input and any dither). -/
theorem BitCrusher.process_mem (c : BitCrusher) (x : ℝ) (hL : 1 ≤ c.levels) :
    -1 ≤ (BitCrusher.process c x).1 ∧ (BitCrusher.process c x).1 ≤ 1 := by
  by_cases hd : c.dither > 0 <;>
    simp only [BitCrusher.process, BitCrusher.nextRandom, hd, if_pos,
      if_neg, not_false_eq_true, ite_true, ite_false] <;>
    exact bitcrusher_quant_mem _ _ hL

/-- **C7.**  For every bit depth in `[4, 16]`, dither in `[0, 1]` and input
in `[-1, 1]`, the BitCrusher output is in `[-1, 1]`. -/
theorem C7_bitcrusher_output_range (c0 : BitCrusher) (b d x : ℝ)
    (_hb1 : 4 ≤ b) (_hb2 : b ≤ 16) (_hd1 : 0 ≤ d) (_hd2 : d ≤ 1)
    (_hx1 : -1 ≤ x) (_hx2 : x ≤ 1) :
    -1 ≤ (BitCrusher.process
        (BitCrusher.setDither d (BitCrusher.setBitDepth b c0)) x).1 ∧
      (BitCrusher.process
        (BitCrusher.setDither d (BitCrusher.setBitDepth b c0)) x).1 ≤ 1 :=
  BitCrusher.process_mem _ x (BitCrusher.one_le_levels_setBitDepth b c0)

/-- Witness for C7 at bit depth 8, dither 1/2, input 1/2. -/
theorem C7_witness :
    -1 ≤ (BitCrusher.process (BitCrusher.setDither (1/2)
        (BitCrusher.setBitDepth 8 BitCrusher.init)) (1/2)).1 ∧
      (BitCrusher.process (BitCrusher.setDither (1/2)
        (BitCrusher.setBitDepth 8 BitCrusher.init)) (1/2)).1 ≤ 1 :=
  C7_bitcrusher_output_range BitCrusher.init 8 (1/2) (1/2) (by norm_num)
    (by norm_num) (by norm_num) (by norm_num) (by norm_num) (by norm_num)

/-!
## C8: determinism and idempotence of the dither-free BitCrusher
-/

/-- The clamped round-to-integer quantizer is idempotent on arguments that
stay inside `[0, L]` (the re-quantization of its own clamped output is a
fixed point). -/
theorem cround_quant_idem (L s : ℝ) (hL : 1 ≤ L) (hs0 : 0 ≤ s)
    (hsL : s ≤ L) :
    sclampR (cround ((sclampR (cround s) 0 L / L * 2 - 1 + 1) * 0.5 * L)) 0 L
      = sclampR (cround s) 0 L := by
  have hLpos : (0:ℝ) < L := by linarith
  have hcr : cround s = ((⌊s + 1/2⌋ : ℤ) : ℝ) := by
    unfold cround
    rw [if_neg (not_lt.mpr hs0)]
  set m : ℤ := ⌊s + 1/2⌋ with hm
  have hm0 : (0:ℝ) ≤ (m:ℝ) := by
    exact_mod_cast Int.floor_nonneg.mpr (by linarith : (0:ℝ) ≤ s + 1/2)
  rw [hcr]
  unfold sclampR
  rw [if_neg (not_lt.mpr hm0)]
  by_cases hc : L < (m:ℝ)
  · rw [if_pos hc]
    have hLL : (L / L * 2 - 1 + 1) * 0.5 * L = L := by
      field_simp
      norm_num
    rw [hLL]
    have hcrL : cround L = ((⌊L + 1/2⌋ : ℤ) : ℝ) := by
      unfold cround
      rw [if_neg (not_lt.mpr (by linarith : (0:ℝ) ≤ L))]
    rw [hcrL]
    have hmono : m ≤ ⌊L + 1/2⌋ := hm ▸ Int.floor_le_floor (by linarith)
    have hgt : L < ((⌊L + 1/2⌋ : ℤ) : ℝ) :=
      lt_of_lt_of_le hc (by exact_mod_cast hmono)
    rw [if_neg (not_lt.mpr (by linarith : (0:ℝ) ≤ ((⌊L + 1/2⌋ : ℤ) : ℝ))),
      if_pos hgt]
  · rw [if_neg hc]
    have hqL : ((m:ℝ) / L * 2 - 1 + 1) * 0.5 * L = (m:ℝ) := by
      field_simp
      ring
    rw [hqL]
    have hcrm : cround (m:ℝ) = (m:ℝ) := by
      unfold cround
      rw [if_neg (not_lt.mpr hm0)]
      norm_num
    rw [hcrm, if_neg (not_lt.mpr hm0), if_neg hc]

/-- With `dither = 0` the per-sample transform neither reads nor advances
the RNG and leaves the whole state unchanged. -/
theorem BitCrusher.process_no_rng (c : BitCrusher) (x : ℝ)
    (hd : c.dither = 0) :
    (BitCrusher.process c x).2 = c ∧
    ∀ r : ℕ, (BitCrusher.process { c with rngState := r } x).1
      = (BitCrusher.process c x).1 := by
  constructor
  · simp [BitCrusher.process, hd]
  · intro r
    simp [BitCrusher.process, hd]

/-- With `dither = 0` and input in `[-1, 1]`, `process ∘ process = process`
whenever at least one quantization level is configured. -/
theorem BitCrusher.process_idem (c : BitCrusher) (x : ℝ) (hd : c.dither = 0)
    (hL : 1 ≤ c.levels) (hx1 : -1 ≤ x) (hx2 : x ≤ 1) :
    (BitCrusher.process c ((BitCrusher.process c x).1)).1
      = (BitCrusher.process c x).1 := by
  have hd' : ¬c.dither > 0 := by simp [hd]
  have hLpos : (0:ℝ) < c.levels := by linarith
  simp only [BitCrusher.process, hd', ite_false, if_neg, not_false_eq_true]
  have hs0 : (0:ℝ) ≤ (x + 1) * 0.5 * c.levels := by nlinarith
  have hsL : (x + 1) * 0.5 * c.levels ≤ c.levels := by nlinarith
  have := cround_quant_idem c.levels ((x + 1) * 0.5 * c.levels) hL hs0 hsL
  rw [this]

/-- **C8 counterexample.**  At the fractional bit depth `log₂(166/5)`
(≈ 5.05, inside `[4, 16]`, giving `levels = 161/5 = 32.2`) and dither 0, the
claimed idempotence `process(process(x)) == process(x)` fails at the input
`x = 2`: the first pass clamps to the non-integer level count and returns
exactly 1, but re-processing 1 rounds `32.2` down to `32` and returns
`159/161 ≠ 1`. -/
theorem C8_counterexample :
    4 ≤ Real.logb 2 (166/5) ∧ Real.logb 2 (166/5) ≤ 16 ∧
    (BitCrusher.process
        (BitCrusher.setDither 0
          (BitCrusher.setBitDepth (Real.logb 2 (166/5)) BitCrusher.init))
        ((BitCrusher.process
          (BitCrusher.setDither 0
            (BitCrusher.setBitDepth (Real.logb 2 (166/5)) BitCrusher.init))
          2).1)).1 ≠
      (BitCrusher.process
        (BitCrusher.setDither 0
          (BitCrusher.setBitDepth (Real.logb 2 (166/5)) BitCrusher.init))
        2).1 := by
  have hb2 : (1:ℝ) < 2 := by norm_num
  have hy : (0:ℝ) < 166/5 := by norm_num
  have h4 : (4:ℝ) ≤ Real.logb 2 (166/5) := by
    rw [Real.le_logb_iff_rpow_le hb2 hy]
    rw [show ((4:ℝ) = ((4:ℕ):ℝ)) by norm_num, Real.rpow_natCast]
    norm_num
  have h16 : Real.logb 2 (166/5) ≤ 16 := by
    rw [Real.logb_le_iff_le_rpow hb2 hy]
    rw [show ((16:ℝ) = ((16:ℕ):ℝ)) by norm_num, Real.rpow_natCast]
    norm_num
  refine ⟨h4, h16, ?_⟩
  have hclamp : sclampR (Real.logb 2 (166/5)) 4 16 = Real.logb 2 (166/5) := by
    unfold sclampR
    rw [if_neg (not_lt.mpr h4), if_neg (not_lt.mpr h16)]
  have hlev :
      (BitCrusher.setDither 0
        (BitCrusher.setBitDepth (Real.logb 2 (166/5)) BitCrusher.init)).levels
        = 161/5 := by
    simp only [BitCrusher.setDither, BitCrusher.setBitDepth,
      BitCrusher.updateQuantizationLevels, hclamp]
    rw [Real.rpow_logb (by norm_num) (by norm_num) hy]
    norm_num
  have hdith :
      (BitCrusher.setDither 0
        (BitCrusher.setBitDepth (Real.logb 2 (166/5)) BitCrusher.init)).dither
        = 0 := by
    simp only [BitCrusher.setDither, BitCrusher.setBitDepth,
      BitCrusher.updateQuantizationLevels]
    unfold sclampR
    norm_num
  have hd' : ¬(BitCrusher.setDither 0
      (BitCrusher.setBitDepth (Real.logb 2 (166/5)) BitCrusher.init)).dither
        > 0 := by
    rw [hdith]
    norm_num
  simp only [BitCrusher.process, hd', ite_false, if_neg, not_false_eq_true,
    hlev]
  have hfirst :
      sclampR (cround ((2 + 1) * 0.5 * (161/5))) 0 (161/5) / (161/5) * 2 - 1
        = 1 := by
    have : cround ((2 + 1) * 0.5 * (161/5)) = 48 := by
      unfold cround
      rw [if_neg (by norm_num)]
      rw [show ((48:ℝ) = ((48:ℤ):ℝ)) by norm_num]
      congr 1
      rw [Int.floor_eq_iff]
      constructor <;> norm_num
    rw [this]
    unfold sclampR
    rw [if_neg (by norm_num), if_pos (by norm_num)]
    norm_num
  rw [hfirst]
  have hsecond : cround ((1 + 1) * 0.5 * (161/5)) = 32 := by
    unfold cround
    rw [if_neg (by norm_num)]
    rw [show ((32:ℝ) = ((32:ℤ):ℝ)) by norm_num]
    congr 1
    rw [Int.floor_eq_iff]
    constructor <;> norm_num
  rw [hsecond]
  unfold sclampR
  rw [if_neg (by norm_num), if_neg (by norm_num)]
  norm_num

/-- **C8 (amended).**  For every bit depth in `[4, 16]` with dither 0 the
transform is deterministic — `process` neither reads nor advances the RNG
state, so equal inputs give equal outputs regardless of the RNG seed — and
idempotent on already-quantized values of inputs from the documented sample
domain `[-1, 1]`: `process(process(x)) == process(x)` for every `x ∈ [-1, 1]`
(outside `[-1, 1]` idempotence can fail at fractional bit depths, see the
counterexample). -/
theorem C8_deterministic_idempotent (c0 : BitCrusher) (b x : ℝ)
    (_hb1 : 4 ≤ b) (_hb2 : b ≤ 16) (hx1 : -1 ≤ x) (hx2 : x ≤ 1) :
    ((BitCrusher.process
        (BitCrusher.setDither 0 (BitCrusher.setBitDepth b c0)) x).2
      = BitCrusher.setDither 0 (BitCrusher.setBitDepth b c0)) ∧
    (∀ r : ℕ, (BitCrusher.process
        { BitCrusher.setDither 0 (BitCrusher.setBitDepth b c0) with
          rngState := r } x).1
      = (BitCrusher.process
        (BitCrusher.setDither 0 (BitCrusher.setBitDepth b c0)) x).1) ∧
    (BitCrusher.process (BitCrusher.setDither 0 (BitCrusher.setBitDepth b c0))
        ((BitCrusher.process
          (BitCrusher.setDither 0 (BitCrusher.setBitDepth b c0)) x).1)).1
      = (BitCrusher.process
          (BitCrusher.setDither 0 (BitCrusher.setBitDepth b c0)) x).1 := by
  have hdith : (BitCrusher.setDither 0 (BitCrusher.setBitDepth b c0)).dither
      = 0 := by
    simp only [BitCrusher.setDither, BitCrusher.setBitDepth,
      BitCrusher.updateQuantizationLevels]
    unfold sclampR
    norm_num
  have hlev : 1 ≤ (BitCrusher.setDither 0
      (BitCrusher.setBitDepth b c0)).levels :=
    BitCrusher.one_le_levels_setBitDepth b c0
  exact ⟨(BitCrusher.process_no_rng _ x hdith).1,
    (BitCrusher.process_no_rng _ x hdith).2,
    BitCrusher.process_idem _ x hdith hlev hx1 hx2⟩

/-- Witness for the amended C8 at bit depth 8 and input 1/2. -/
theorem C8_witness :
    (BitCrusher.process (BitCrusher.setDither 0
        (BitCrusher.setBitDepth 8 BitCrusher.init))
        ((BitCrusher.process (BitCrusher.setDither 0
          (BitCrusher.setBitDepth 8 BitCrusher.init)) (1/2)).1)).1
      = (BitCrusher.process (BitCrusher.setDither 0
          (BitCrusher.setBitDepth 8 BitCrusher.init)) (1/2)).1 :=
  (C8_deterministic_idempotent BitCrusher.init 8 (1/2) (by norm_num)
    (by norm_num) (by norm_num) (by norm_num)).2.2

/-!
## C10: exact characterization of `HalfbandFilter::setCoefficients`
-/

/-- The coefficient layout stated by claim C10: `1/2` at the center
`kLatency`; `tbl[(d-1)/2]` at the taps whose odd distance `d` from the
center satisfies `d < kLatency` and `(d-1)/2 < m` (where
`m = min(numCoeffs, NumTaps/2)`); and `0` everywhere else. -/
def hbInstalledSpec (kLat m : ℕ) (tbl : List ℚ) (j : ℕ) : ℚ :=
  if j = kLat then 1/2
  else
    let d := if j < kLat then kLat - j else j - kLat
    if d % 2 = 1 ∧ d < kLat ∧ (d - 1) / 2 < m then tbl.getD ((d - 1) / 2) 0
    else 0

/-- Growing the iteration bound changes `hbInstalledSpec` only at the two
indices freshly installed by iteration `m` (when `2m+1 < kLatency`). -/
theorem hbInstalledSpec_succ (kLat m : ℕ) (tbl : List ℚ) (j : ℕ)
    (h : ¬2 * m + 1 < kLat ∨
      (¬kLat + (2 * m + 1) = j ∧ ¬kLat - (2 * m + 1) = j)) :
    hbInstalledSpec kLat m tbl j = hbInstalledSpec kLat (m + 1) tbl j := by
  simp only [hbInstalledSpec]
  by_cases hjk : j = kLat
  · simp [hjk]
  · simp only [hjk, ite_false]
    rcases Nat.lt_or_ge j kLat with hlt | hge
    · simp only [hlt, ite_true]
      refine if_congr ⟨fun hh => ⟨hh.1, hh.2.1, ?_⟩, fun hh => ⟨hh.1, hh.2.1, ?_⟩⟩
        rfl rfl
      · omega
      · rcases h with h | ⟨h1, h2⟩ <;> omega
    · have hnl : ¬j < kLat := by omega
      simp only [hnl, ite_false]
      refine if_congr ⟨fun hh => ⟨hh.1, hh.2.1, ?_⟩, fun hh => ⟨hh.1, hh.2.1, ?_⟩⟩
        rfl rfl
      · omega
      · rcases h with h | ⟨h1, h2⟩ <;> omega

/-- Loop invariant of the `setCoefficients` installation loop: after `m`
iterations the array holds exactly the layout `hbInstalledSpec kLat m`. -/
theorem hb_setCoefficients_loop (nt kLat : ℕ) (tbl : List ℚ) (m : ℕ) :
    (List.range m).foldl
      (fun acc i =>
        let oddIdx := 2 * i + 1
        if oddIdx < kLat then
          ((acc.set (kLat - oddIdx) (tbl.getD i 0)).set (kLat + oddIdx)
            (tbl.getD i 0))
        else acc)
      ((List.replicate nt (0:ℚ)).set kLat (1/2))
      = (List.range nt).map (fun j => hbInstalledSpec kLat m tbl j) := by
  induction m with
  | zero =>
    apply List.ext_getElem
    · simp
    · intro j h1 h2
      simp only [List.foldl_nil, List.getElem_set, List.getElem_replicate,
        List.getElem_map, List.getElem_range, hbInstalledSpec]
      by_cases hj : j = kLat
      · simp [hj]
      · simp [hj, Ne.symm hj]
  | succ m ih =>
    rw [List.range_succ, List.foldl_append, ih]
    simp only [List.foldl_cons, List.foldl_nil]
    by_cases hcase : 2 * m + 1 < kLat
    · rw [if_pos hcase]
      apply List.ext_getElem
      · simp
      · intro j h1 h2
        rw [List.getElem_set, List.getElem_set]
        simp only [List.getElem_map, List.getElem_range]
        by_cases hj1 : kLat + (2 * m + 1) = j
        · rw [if_pos hj1]
          simp only [hbInstalledSpec]
          rw [if_neg (by omega : ¬j = kLat)]
          have hnl : ¬j < kLat := by omega
          simp only [hnl, ite_false]
          rw [if_pos ⟨by omega, by omega, by omega⟩]
          congr 1
          omega
        · rw [if_neg hj1]
          by_cases hj2 : kLat - (2 * m + 1) = j
          · rw [if_pos hj2]
            simp only [hbInstalledSpec]
            rw [if_neg (by omega : ¬j = kLat)]
            have hl : j < kLat := by omega
            simp only [hl, ite_true]
            rw [if_pos ⟨by omega, by omega, by omega⟩]
            congr 1
            omega
          · rw [if_neg hj2]
            exact hbInstalledSpec_succ kLat m tbl j (Or.inr ⟨hj1, hj2⟩)
    · rw [if_neg hcase]
      apply List.map_congr_left
      intro j _
      exact hbInstalledSpec_succ kLat m tbl j (Or.inl hcase)

unseal Rat.mul Rat.add Rat.inv Rat.sub Rat.ofScientific in
/-- **C10.**  `setCoefficients` installs exactly the layout of
`hbInstalledSpec`: `0.5` at the center, the mirrored table entries only at
odd offsets `2i+1 < kLatency` with `i < min(numCoeffs, NumTaps/2)`, zero
elsewhere.  In particular a table entry at odd offset `2i+1 = kLatency` is
never installed, so the filters configured from `kStandardFirCoeffs` /
`kHighFirCoeffs` omit the largest tabulated coefficient pair adjacent to the
center tap (`0.31565937` resp. `0.28205469` appear nowhere in the installed
arrays). -/
theorem C10_setCoefficients_layout :
    (∀ (f : HBFilter) (tbl : List ℚ),
      (f.setCoefficients tbl).coeffs
        = (List.range f.numTaps).map
            (fun j => hbInstalledSpec f.kLatency
              (min tbl.length (f.numTaps / 2)) tbl j)) ∧
    (0.31565937 : ℚ) ∉
      ((HBFilter.initFilter kStandardFirLength).setCoefficients
        kStandardFirCoeffs).coeffs ∧
    (0.28205469 : ℚ) ∉
      ((HBFilter.initFilter kHighFirLength).setCoefficients
        kHighFirCoeffs).coeffs := by
  refine ⟨fun f tbl => ?_, by decide, by decide⟩
  simp only [HBFilter.setCoefficients]
  exact hb_setCoefficients_loop f.numTaps f.kLatency tbl
    (min tbl.length (f.numTaps / 2))

/-!
## C1: DC round-trip through the FIR oversampler

Claim C1 asserts that every prepared oversampler reproduces a DC block
through an identity callback within the filter's passband-ripple tolerance
once transients settle.  The theorem below evaluates the embedded pipeline
at the failing configuration (2x mono, `Standard` quality, `LinearPhase`
mode, 44.1 kHz, 48-sample DC block of 1): the output settles at exactly
`166947288790241/312500000000000 ≈ 0.534231` — a `-5.4 dB` error, orders of
magnitude beyond any passband ripple.  The cause is the
`setCoefficients` layout of C10: the configured halfband filter omits the
`0.31565937` coefficient pair, so its DC gain is `≈ 0.369` instead of 1.
-/

set_option maxRecDepth 100000 in
unseal Rat.mul Rat.add Rat.inv Rat.sub Rat.ofScientific in
/-- **C1 (code bug).**  The DC round-trip through the `Standard`/
`LinearPhase` FIR configuration settles at `≈ 0.534231`, not at the input
value 1: the last 12 of 48 output samples are all exactly
`166947288790241/312500000000000`, and that settled value misses the input
by more than `1/4`. -/
theorem C1_dc_roundtrip_code_bug :
    ((Oversampler.processMono
        (Oversampler.prepare (fun _ _ => []) 44100 64
          OversamplingQuality.Standard OversamplingMode.LinearPhase
          (Oversampler.initOs 2 1))
        (List.replicate 48 1) id).2).drop 36
      = List.replicate 12 (166947288790241/312500000000000) ∧
    (1:ℚ)/4 < |166947288790241/312500000000000 - (1:ℚ)| := by
  constructor
  · decide
  · rw [abs_of_neg (by norm_num)]
    norm_num

end IterumDSP
